import Mathlib

/-!
Verification of the fold-and-cut crease engine (polygon editor repository).

The geometry kernel (utils.js), the ring builder and crease extractor
(engine.js) are shallowly embedded below.  JavaScript floating point
numbers are modelled by exact rationals; every decimal literal of the
source (1e-9, 1e-10, 1e-12, 1e-2, 1e-6, 1e-7) is taken at its exact
decimal value.  Math.sqrt, the one irrational operation, is abstracted
as an explicit function argument where the source uses it.
-/

deriving instance DecidableEq for Except

namespace FoldCut

/-- A 2D point, the value produced by the pt helper of utils.js. -/
structure Point where
  x : ℚ
  y : ℚ
  deriving DecidableEq, Repr

instance : Inhabited Point := ⟨⟨0, 0⟩⟩

/-- utils.js pt. -/
def pt (x y : ℚ) : Point := ⟨x, y⟩

/-- utils.js add. -/
def add (a b : Point) : Point := ⟨a.x + b.x, a.y + b.y⟩

/-- utils.js sub. -/
def sub (a b : Point) : Point := ⟨a.x - b.x, a.y - b.y⟩

/-- utils.js mul. -/
def mul (a : Point) (s : ℚ) : Point := ⟨a.x * s, a.y * s⟩

/-- utils.js dot. -/
def dot (a b : Point) : ℚ := a.x * b.x + a.y * b.y

/-- utils.js cross. -/
def cross (a b : Point) : ℚ := a.x * b.y - a.y * b.x

/-- utils.js len2. -/
def len2 (a : Point) : ℚ := a.x * a.x + a.y * a.y

/-- utils.js dist2. -/
def dist2 (a b : Point) : ℚ := (a.x - b.x) ^ 2 + (a.y - b.y) ^ 2

/-- utils.js clamp: Math.max(a, Math.min(b, v)). -/
def clamp (v a b : ℚ) : ℚ := max a (min b v)

/-- utils.js normalize.  The source divides by len(v) = Math.sqrt(len2 v);
the square root is abstracted as the argument sqrtQ. -/
def normalize (sqrtQ : ℚ → ℚ) (v : Point) : Point :=
  let l := sqrtQ (len2 v)
  if l < 1 / 1000000000000 then ⟨0, 0⟩ else ⟨v.x / l, v.y / l⟩

/-- utils.js bboxOfPoints result. -/
structure Bbox where
  minX : ℚ
  minY : ℚ
  maxX : ℚ
  maxY : ℚ
  deriving DecidableEq, Repr

/-- One min/max accumulation step of utils.js bboxOfPoints. -/
def bboxStep (bb : Bbox) (q : Point) : Bbox :=
  ⟨min bb.minX q.x, min bb.minY q.y, max bb.maxX q.x, max bb.maxY q.y⟩

/-- utils.js bboxOfPoints.  The source folds min/max starting from the
infinite sentinels and returns the zero box when nothing was finite;
folding over a nonempty list starting from its first element is the
same computation, and the empty list gives the zero box. -/
def bboxOfPoints (points : List Point) : Bbox :=
  match points with
  | [] => ⟨0, 0, 0, 0⟩
  | p :: rest => rest.foldl bboxStep ⟨p.x, p.y, p.x, p.y⟩

/-- One term p.x*q.y - q.x*p.y of the shoelace accumulation in
utils.js polygonArea. -/
def crossTerm (p q : Point) : ℚ := p.x * q.y - q.x * p.y

/-- Sum of crossTerm over consecutive pairs of a vertex walk. -/
def shoelaceSum : List Point → ℚ
  | p :: q :: rest => crossTerm p q + shoelaceSum (q :: rest)
  | _ => 0

/-- utils.js polygonArea: the loop pairs points[i] with
points[(i+1) % n], which is the walk along points with the first point
appended (for the empty list nothing is appended and the sum is 0). -/
def polygonArea (points : List Point) : ℚ :=
  shoelaceSum (points ++ points.take 1) / 2

/-- The two moment accumulators cx, cy of utils.js polygonCentroid,
over the same cyclic walk as polygonArea. -/
def centroidSums : List Point → ℚ × ℚ
  | p :: q :: rest =>
    let k := crossTerm p q
    let r := centroidSums (q :: rest)
    ((p.x + q.x) * k + r.1, (p.y + q.y) * k + r.2)
  | _ => (0, 0)

/-- utils.js polygonCentroid. -/
def polygonCentroid (points : List Point) : Point :=
  let A := polygonArea points
  if |A| < 1 / 1000000000000 then
    let b := bboxOfPoints points
    pt ((b.minX + b.maxX) / 2) ((b.minY + b.maxY) / 2)
  else
    let s := centroidSums (points ++ points.take 1)
    pt (s.1 / (6 * A)) (s.2 / (6 * A))

/-- utils.js ensureCCW. -/
def ensureCCW (points : List Point) : List Point :=
  if polygonArea points < 0 then points.reverse else points

/-- utils.js ensureCW. -/
def ensureCW (points : List Point) : List Point :=
  if polygonArea points > 0 then points.reverse else points

/-- utils.js pointInPolygon, ray casting.  The source pairs index i with
j = n-1 for i = 0 and j = i-1 otherwise. -/
def pointInPolygon (p : Point) (poly : List Point) : Bool :=
  (List.range poly.length).foldl
    (fun inside i =>
      let a := poly.getD i default
      let b := poly.getD (if i = 0 then poly.length - 1 else i - 1) default
      if (decide (a.y > p.y) != decide (b.y > p.y))
          && decide (p.x < (b.x - a.x) * (p.y - a.y) / (b.y - a.y) + a.x)
      then !inside else inside)
    false

/-- utils.js orient. -/
def orient (a b c : Point) : ℚ := cross (sub b a) (sub c a)

/-- utils.js onSegment. -/
def onSegment (a b p : Point) (eps : ℚ := 1 / 1000000000) : Bool :=
  decide (min a.x b.x - eps ≤ p.x) && decide (p.x ≤ max a.x b.x + eps) &&
  decide (min a.y b.y - eps ≤ p.y) && decide (p.y ≤ max a.y b.y + eps) &&
  decide (|orient a b p| ≤ eps)

/-- utils.js segmentsIntersect. -/
def segmentsIntersect (a b c d : Point) (eps : ℚ := 1 / 1000000000) : Bool :=
  let o1 := orient a b c
  let o2 := orient a b d
  let o3 := orient c d a
  let o4 := orient c d b
  if ((decide (o1 > eps) && decide (o2 < -eps)) || (decide (o1 < -eps) && decide (o2 > eps)))
      && ((decide (o3 > eps) && decide (o4 < -eps)) || (decide (o3 < -eps) && decide (o4 > eps)))
  then true
  else if decide (|o1| ≤ eps) && onSegment a b c eps then true
  else if decide (|o2| ≤ eps) && onSegment a b d eps then true
  else if decide (|o3| ≤ eps) && onSegment c d a eps then true
  else if decide (|o4| ≤ eps) && onSegment c d b eps then true
  else false

/-- utils.js isSimplePolygon: the quadratic check; the inner loop starts
at j = i+1, adjacent edges sharing a vertex are exempt. -/
def isSimplePolygon (points : List Point) (eps : ℚ := 1 / 1000000000) : Bool :=
  let n := points.length
  if n < 3 then false
  else
    (List.range n).all fun i =>
      (List.range n).all fun j =>
        if j ≤ i then true
        else if (i + 1) % n = j then true
        else if i = (j + 1) % n then true
        else
          !(segmentsIntersect (points.getD i default) (points.getD ((i + 1) % n) default)
              (points.getD j default) (points.getD ((j + 1) % n) default) eps)

/-- The record returned by utils.js nearestPointOnSegment. -/
structure NearestResult where
  q : Point
  t : ℚ
  deriving DecidableEq, Repr

/-- utils.js nearestPointOnSegment. -/
def nearestPointOnSegment (p a b : Point) : NearestResult :=
  let ab := sub b a
  let t := clamp (dot (sub p a) ab / (len2 ab + 1 / 1000000000000)) 0 1
  ⟨add a (mul ab t), t⟩

/-- The record returned by utils.js lineRaySegmentIntersection on a hit. -/
structure Hit where
  t : ℚ
  u : ℚ
  p : Point
  deriving DecidableEq, Repr

/-- utils.js lineRaySegmentIntersection. -/
def lineRaySegmentIntersection (rayP rayDir a b : Point) (eps : ℚ := 1 / 1000000000) :
    Option Hit :=
  let v := rayDir
  let w := sub b a
  let denom := cross v w
  if |denom| ≤ eps then none
  else
    let ap := sub a rayP
    let t := cross ap w / denom
    let u := cross ap v / denom
    if t ≥ -eps ∧ u ≥ -eps ∧ u ≤ 1 + eps then some ⟨t, u, add rayP (mul v t)⟩ else none

/-- JavaScript Math.round: round half toward positive infinity. -/
def roundJS (x : ℚ) : ℤ := ⌊x + 1 / 2⌋

/-- utils.js quantizePoint. -/
def quantizePoint (p : Point) (q : ℚ) : Point :=
  ⟨(roundJS (p.x / q) : ℚ) * q, (roundJS (p.y / q) : ℚ) * q⟩

/-- utils.js keyForUndirectedEdge.  The source renders both quantized
points as decimal strings and sorts the two strings; since distinct
numbers render as distinct strings and equal numbers as equal strings,
two keys are equal exactly when the unordered pairs of quantized points
are equal, so the key is modelled as the pair sorted by coordinates. -/
def keyForUndirectedEdge (a b : Point) (q : ℚ := 1 / 1000) : Point × Point :=
  let A := quantizePoint a q
  let B := quantizePoint b q
  if A.x < B.x ∨ (A.x = B.x ∧ A.y ≤ B.y) then (A, B) else (B, A)

/-- A skeleton vertex [x, y, collapseTime] of the solver output. -/
structure SkelVertex where
  x : ℚ
  y : ℚ
  t : ℚ
  deriving DecidableEq, Repr

instance : Inhabited SkelVertex := ⟨⟨0, 0, 0⟩⟩

/-- The solver output consumed by engine.js: vertices plus faces given
as cyclic index lists. -/
structure Skeleton where
  vertices : List SkelVertex
  polygons : List (List ℕ)
  deriving DecidableEq, Repr

/-- The undirected edge keys contributed by one face boundary cycle in
extractInteriorEdgesFromSkeleton: for each position the pair of the
index and its cyclic successor, skipped when both are equal, normalized
as (min, max). -/
def cycleKeys (poly : List ℕ) : List (ℕ × ℕ) :=
  (List.range poly.length).filterMap fun i =>
    let a := poly.getD i 0
    let b := poly.getD ((i + 1) % poly.length) 0
    if a = b then none else some (min a b, max a b)

/-- One Map.set(key, (Map.get(key) ?? 0) + 1) step on the insertion
ordered association list: an existing key is incremented in place, a
new key is appended at the end. -/
def bump : List ((ℕ × ℕ) × ℕ) → (ℕ × ℕ) → List ((ℕ × ℕ) × ℕ)
  | [], k => [(k, 1)]
  | (k0, c) :: rest, k =>
    if k = k0 then (k0, c + 1) :: rest else (k0, c) :: bump rest k

/-- All edge keys of all faces in traversal order (outer loop over
faces, inner loop over cycle positions). -/
def skeletonEdgeKeys (skel : Skeleton) : List (ℕ × ℕ) :=
  (skel.polygons.map cycleKeys).flatten

/-- The edgeCount map of engine.js extractInteriorEdgesFromSkeleton,
as the insertion ordered association list a JavaScript Map iterates. -/
def edgeCountList (skel : Skeleton) : List ((ℕ × ℕ) × ℕ) :=
  (skeletonEdgeKeys skel).foldl bump []

/-- The per-key vertex checks of extractInteriorEdgesFromSkeleton
after the count check: both vertices exist (the source skips a key
whose index lookup yields undefined) and the squared endpoint distance
dx*dx + dy*dy is at least 1e-10 (the source skips degenerate keys
below it). -/
def edgeRenderable (skel : Skeleton) (k : ℕ × ℕ) : Bool :=
  match skel.vertices.get? k.1, skel.vertices.get? k.2 with
  | some v0, some v1 =>
    !decide ((v0.x - v1.x) * (v0.x - v1.x) + (v0.y - v1.y) * (v0.y - v1.y) < 1 / 10000000000)
  | _, _ => false

/-- The per-entry step of engine.js extractInteriorEdgesFromSkeleton:
keep a key counted at least twice whose vertex checks pass. -/
def interiorEdgeFilter (skel : Skeleton) (kc : (ℕ × ℕ) × ℕ) : Option (ℕ × ℕ) :=
  if kc.2 < 2 then none
  else if edgeRenderable skel kc.1 then some kc.1 else none

/-- engine.js extractInteriorEdgesFromSkeleton: the per-key loop over
the entries of the edge count map in insertion order. -/
def extractInteriorEdgesFromSkeleton (skel : Skeleton) : List (ℕ × ℕ) :=
  (edgeCountList skel).filterMap (interiorEdgeFilter skel)

/-- A crease segment of engine.js. -/
structure Crease where
  a : Point
  b : Point
  kind : String
  source : String
  deriving DecidableEq, Repr

/-- engine.js EPS_TIME. -/
def EPS_TIME : ℚ := 1 / 10000000

/-- engine.js farthestPair: double loop over index pairs i < j keeping
the first pair of maximal squared distance; bestD2 starts at negative
infinity, modelled as none, which every squared distance beats. -/
def farthestPair (points : List Point) : Point × Point :=
  let n := points.length
  let pairs := (List.range n).flatMap fun i => ((List.range n).drop (i + 1)).map fun j => (i, j)
  let best := pairs.foldl
    (fun (best : ℕ × ℕ × Option ℚ) ij =>
      let d2 := dist2 (points.getD ij.1 default) (points.getD ij.2 default)
      match best.2.2 with
      | none => (ij.1, ij.2, some d2)
      | some bd => if d2 > bd then (ij.1, ij.2, some d2) else best)
    (0, 1, none)
  (points.getD best.1 default, points.getD best.2.1 default)

/-- The candidate perpendicular segments of engine.js
buildPerpendicularsFromFaces, in generation order: per face the
defining edge is the farthest pair of collapse-time-zero vertices, each
elevated vertex is projected onto that line and a ray toward the foot
is intersected with the face boundary keeping the nearest hit with
ray parameter above 1e-6.  Candidate generation never reads the seen
set, so it is split from the deduplication pass below. -/
def valleyCandidates (sqrtQ : ℚ → ℚ) (skel : Skeleton) : List (Point × Point) :=
  skel.polygons.flatMap fun poly =>
    let face := poly.map fun i => skel.vertices.getD i default
    let boundaryPts := (face.filter fun v => |v.t| ≤ EPS_TIME).map fun v => pt v.x v.y
    if boundaryPts.length < 2 then []
    else
      let e := farthestPair boundaryPts
      let d := normalize sqrtQ (sub e.2 e.1)
      if d.x = 0 ∧ d.y = 0 then []
      else
        let face2D := face.map fun v => pt v.x v.y
        face.filterMap fun v =>
          if v.t ≤ EPS_TIME then none
          else
            let p := pt v.x v.y
            let foot := add e.1 (mul d (dot (sub p e.1) d))
            let dir := normalize sqrtQ (sub foot p)
            if dir.x = 0 ∧ dir.y = 0 then none
            else
              let best := (List.range face2D.length).foldl
                (fun (best : Option Hit) i =>
                  let a := face2D.getD i default
                  let b := face2D.getD ((i + 1) % face2D.length) default
                  match lineRaySegmentIntersection p dir a b with
                  | none => best
                  | some hit =>
                    if hit.t ≤ 1 / 1000000 then best
                    else
                      match best with
                      | none => some hit
                      | some bh => if hit.t < bh.t then some hit else best)
                none
              match best with
              | none => none
              | some bh => some (p, bh.p)

/-- The seen-set deduplication pass of buildPerpendicularsFromFaces:
each candidate is keyed by keyForUndirectedEdge with tolerance 1e-2 and
dropped when the key was already seen, otherwise emitted as a Valley
crease. -/
def valleyDedupGo (seen : List (Point × Point)) : List (Point × Point) → List Crease
  | [] => []
  | s :: rest =>
    if keyForUndirectedEdge s.1 s.2 (1 / 100) ∈ seen then valleyDedupGo seen rest
    else ⟨s.1, s.2, "V", "perp"⟩ ::
      valleyDedupGo (keyForUndirectedEdge s.1 s.2 (1 / 100) :: seen) rest

/-- engine.js buildPerpendicularsFromFaces: generate candidates face by
face and deduplicate them in order with an initially empty seen set. -/
def buildPerpendicularsFromFaces (sqrtQ : ℚ → ℚ) (skel : Skeleton) : List Crease :=
  valleyDedupGo [] (valleyCandidates sqrtQ skel)

/-- A user shape: models.js PolylineShape (id, type string, closed
flag, point list).  Its points field is always an array here, matching
every shape the editor constructs. -/
structure Shape where
  id : String
  stype : String
  closed : Bool
  points : List Point
  deriving DecidableEq, Repr

/-- models.js Project restricted to its shapes array. -/
structure Project where
  shapes : List Shape
  deriving DecidableEq, Repr

/-- models.js Project.getShapeById. -/
def Project.getShapeById (project : Project) (sid : String) : Option Shape :=
  project.shapes.find? fun s => s.id == sid

/-- The throw sites of the ring builder and engine, one constructor per
distinct thrown message, carrying exactly the data interpolated in it. -/
inductive EngineError where
  | noClosedPolygon
  | selectedNotClosed
  | degenerateRing
  | selfIntersectingRing
  | multipleDisjointOuterRings (count : ℕ)
  | skeletonComputationFailed
  deriving DecidableEq, Repr

/-- The exact message strings of the source throw sites. -/
def EngineError.message : EngineError → String
  | .noClosedPolygon => "No closed polygon found. Create one using Pen/Rectangle/Regular Polygon."
  | .selectedNotClosed => "The selected shape is not closed. Please select a closed polygon."
  | .degenerateRing => "A closed shape needs at least 3 points."
  | .selfIntersectingRing => "This shape is self-intersecting. Please use a simple polygon."
  | .multipleDisjointOuterRings count =>
      "Multiple outer candidates (disjoint closed polygons) were detected.\n" ++
      "This demo supports only: \"one outer boundary + holes (inner closed polygons)\".\n" ++
      "Number of polygons outside the outer boundary: " ++ toString count
  | .skeletonComputationFailed =>
      "Failed to generate a straight skeleton (the input may not be weakly simple, etc.)."

/-- One step of the clean loop of engine.js ringFromShape: keep a
point unless both of its coordinates are within 1e-9 of the previously
kept point. -/
def collapseStep (clean : List Point) (p : Point) : List Point :=
  match clean.getLast? with
  | none => clean ++ [p]
  | some prev =>
    if |prev.x - p.x| > 1 / 1000000000 ∨ |prev.y - p.y| > 1 / 1000000000
    then clean ++ [p] else clean

/-- The clean loop of engine.js ringFromShape. -/
def collapseDuplicatePoints (pts : List Point) : List Point :=
  pts.foldl collapseStep []

/-- engine.js ringFromShape, with the pts and clean bindings of the
source written out inline. -/
def ringFromShape (shape : Shape) : Except EngineError (List Point) :=
  if (shape.points.map fun p => pt p.x p.y).length < 3 then .error .degenerateRing
  else if (collapseDuplicatePoints (shape.points.map fun p => pt p.x p.y)).length < 3 then
    .error .degenerateRing
  else if !isSimplePolygon (collapseDuplicatePoints (shape.points.map fun p => pt p.x p.y)) then
    .error .selfIntersectingRing
  else .ok (collapseDuplicatePoints (shape.points.map fun p => pt p.x p.y))

/-- One entry of the ringInfos array of engine.js buildRingsFromProject. -/
structure RingInfo where
  id : String
  ring : List Point
  area : ℚ
  absArea : ℚ
  centroid : Point
  deriving DecidableEq, Repr

/-- The closed filter of buildRingsFromProject. -/
def closedShapesOf (project : Project) : List Shape :=
  project.shapes.filter fun s => s.stype == "polygon" && s.closed

/-- The ringInfos computation; a throw inside the map aborts the whole
run, which the Except mapM reproduces. -/
def ringInfosOf (closed : List Shape) : Except EngineError (List RingInfo) :=
  closed.mapM fun s => do
    let ring ← ringFromShape s
    pure ⟨s.id, ring, polygonArea ring, |polygonArea ring|, polygonCentroid ring⟩

/-- The selected shape: null unless a selectedId is given and found. -/
def selectedShapeOf (project : Project) (selectedId : Option String) : Option Shape :=
  selectedId.bind fun sid => project.getShapeById sid

/-- The guard of the early throw in buildRingsFromProject: a selected
shape exists and is not a closed polygon. -/
def selectedNotClosedCheck (project : Project) (selectedId : Option String) : Bool :=
  match selectedShapeOf project selectedId with
  | some s => !(s.stype == "polygon" && s.closed)
  | none => false

/-- One step of the reduce in buildRingsFromProject choosing the entry
of strictly larger absolute area. -/
def pickMax (a b : RingInfo) : RingInfo :=
  if b.absArea > a.absArea then b else a

/-- The candidate from the selected shape in buildRingsFromProject:
its ring info when it is a closed polygon, none otherwise. -/
def selectedCandidate (selected : Option Shape) (infos : List RingInfo) : Option RingInfo :=
  match selected with
  | some s =>
    if s.stype == "polygon" && s.closed then infos.find? (fun r : RingInfo => r.id == s.id)
    else none
  | none => none

/-- The outer choice of buildRingsFromProject: the info found for a
closed selected polygon, otherwise reduce over ringInfos seeded with
its first element keeping the entry of strictly larger absolute area. -/
def chooseOuter (selected : Option Shape) (infos : List RingInfo) : Option RingInfo :=
  match selectedCandidate selected infos with
  | some o => some o
  | none =>
    match infos with
    | [] => none
    | r0 :: _ => some (infos.foldl pickMax r0)

/-- engine.js buildRingsFromProject up to orientation normalization,
returning the internal implicit-closure rings, outer first (CCW) then
holes (CW).  The hole/outsider loop is written as the two order
preserving filters it computes.  The none branch of chooseOuter is
unreachable because ringInfos is nonempty whenever closed is. -/
def buildRingsCore (project : Project) (selectedId : Option String) :
    Except EngineError (List (List Point)) :=
  if (closedShapesOf project).isEmpty then .error .noClosedPolygon
  else if selectedNotClosedCheck project selectedId then .error .selectedNotClosed
  else
    match ringInfosOf (closedShapesOf project) with
    | .error e => .error e
    | .ok ringInfos =>
      match chooseOuter (selectedShapeOf project selectedId) ringInfos with
      | none => .error .noClosedPolygon
      | some outer =>
        if (ringInfos.filter fun info =>
            !(info.id == outer.id) && !(pointInPolygon info.centroid outer.ring)).length > 0 then
          .error (.multipleDisjointOuterRings
            (ringInfos.filter fun info =>
              !(info.id == outer.id) && !(pointInPolygon info.centroid outer.ring)).length)
        else
          .ok (ensureCCW outer.ring ::
            (ringInfos.filter fun info =>
              !(info.id == outer.id) && pointInPolygon info.centroid outer.ring).map
              fun h => ensureCW h.ring)

/-- A point as the numeric coordinate pair of the explicit-closure
output format. -/
def toPair (p : Point) : ℚ × ℚ := (p.x, p.y)

/-- The explicit-closure conversion of buildRingsFromProject: map the
ring to coordinate pairs and push the first vertex again at the end. -/
def closeRing (r : List Point) : List (ℚ × ℚ) :=
  r.map toPair ++ [toPair (r.headD default)]

/-- The value returned by engine.js buildRingsFromProject. -/
structure BuildResult where
  rings : List (List (ℚ × ℚ))
  outerRing : List Point
  deriving DecidableEq, Repr

/-- engine.js buildRingsFromProject: the normalized rings in explicit
closure form plus the CCW outer ring. -/
def buildRingsFromProject (project : Project) (selectedId : Option String) :
    Except EngineError BuildResult :=
  match buildRingsCore project selectedId with
  | .error e => .error e
  | .ok normalized => .ok ⟨normalized.map closeRing, normalized.headD []⟩

/-- The caller supplied viewport of FoldAndCutEngine.run. -/
structure Viewport where
  w : ℚ
  h : ℚ
  deriving DecidableEq, Repr

/-- The cut line record of FoldAndCutEngine.run. -/
structure CutLine where
  a : Point
  b : Point
  deriving DecidableEq, Repr

/-- The result bundle of FoldAndCutEngine.run. -/
structure RunResult where
  rings : List (List (ℚ × ℚ))
  skeleton : Skeleton
  creases : List Crease
  cutLine : CutLine
  deriving DecidableEq, Repr

/-- engine.js FoldAndCutEngine.run.  The external straight skeleton
solver is the argument solve (null result modelled as none); sqrtQ
abstracts Math.sqrt as in normalize. -/
def FoldAndCutEngine.run (solve : List (List (ℚ × ℚ)) → Option Skeleton) (sqrtQ : ℚ → ℚ)
    (project : Project) (selectedId : Option String) (viewport : Viewport) :
    Except EngineError RunResult :=
  match buildRingsFromProject project selectedId with
  | .error e => .error e
  | .ok res =>
    match solve res.rings with
    | none => .error .skeletonComputationFailed
    | some skeleton =>
      let interiorEdges := extractInteriorEdgesFromSkeleton skeleton
      let mountains := interiorEdges.map fun e =>
        let v0 := skeleton.vertices.getD e.1 default
        let v1 := skeleton.vertices.getD e.2 default
        Crease.mk (pt v0.x v0.y) (pt v1.x v1.y) "M" "skeleton"
      let perps := buildPerpendicularsFromFaces sqrtQ skeleton
      let creases := mountains ++ perps
      let allPts := skeleton.vertices.map fun v => pt v.x v.y
      let bb := bboxOfPoints allPts
      let y := (bb.minY + bb.maxY) / 2
      .ok ⟨res.rings, skeleton, creases, ⟨pt 0 y, pt viewport.w y⟩⟩

/-- Total number of occurrences of an undirected index pair across all
face boundary cycles (occurrences inside one face counted separately),
the quantity the edgeCount map of the source accumulates. -/
def edgeOccurrences (skel : Skeleton) (k : ℕ × ℕ) : ℕ :=
  (skeletonEdgeKeys skel).count k

/-- Lookup in the insertion ordered association list. -/
def lookupCount (m : List ((ℕ × ℕ) × ℕ)) (k : ℕ × ℕ) : Option ℕ :=
  match m with
  | [] => none
  | (k0, c) :: rest => if k = k0 then some c else lookupCount rest k

/-- The bounding box of the skeleton vertices, as computed at the end
of FoldAndCutEngine.run. -/
def skeletonBbox (skel : Skeleton) : Bbox :=
  bboxOfPoints (skel.vertices.map fun v => pt v.x v.y)

/-! Concrete inputs used by counterexamples and witnesses. -/

/-- A skeleton with one face whose cycle walks the edge 0-1 twice
(cycle 0,1,0,2): every undirected pair of this single face is counted
twice. -/
def exSkelC1 : Skeleton :=
  ⟨[⟨0, 0, 0⟩, ⟨1, 0, 0⟩, ⟨0, 1, 0⟩], [[0, 1, 0, 2]]⟩

/-- A closed 10 by 10 square at the origin. -/
def sqA : Shape := ⟨"a", "polygon", true, [pt 0 0, pt 10 0, pt 10 10, pt 0 10]⟩

/-- A closed 10 by 10 square disjoint from sqA. -/
def sqB : Shape := ⟨"b", "polygon", true, [pt 20 0, pt 30 0, pt 30 10, pt 20 10]⟩

/-- Scene with two disjoint closed squares. -/
def projC2 : Project := ⟨[sqA, sqB]⟩

/-- The ring info computed for sqA. -/
def infoA : RingInfo :=
  ⟨"a", [pt 0 0, pt 10 0, pt 10 10, pt 0 10], 100, 100, pt 5 5⟩

/-- The ring info computed for sqB. -/
def infoB : RingInfo :=
  ⟨"b", [pt 20 0, pt 30 0, pt 30 10, pt 20 10], 100, 100, pt 25 5⟩

/-- The ring infos of projC2. -/
def exInfosC2 : List RingInfo := [infoA, infoB]

/-- An open two point polyline with id b. -/
def openB : Shape := ⟨"b", "polyline", false, [pt 20 0, pt 30 0]⟩

/-- Scene with a closed square and an open polyline. -/
def projC3 : Project := ⟨[sqA, openB]⟩

/-- A closed triangle shape with id t. -/
def exTriShape : Shape := ⟨"t", "polygon", true, [pt 0 0, pt 4 0, pt 0 4]⟩

/-- Scene with the single closed triangle. -/
def projTri : Project := ⟨[exTriShape]⟩

/-- The ring info computed for exTriShape. -/
def infoTri : RingInfo :=
  ⟨"t", [pt 0 0, pt 4 0, pt 0 4], 8, 8, pt (4 / 3) (4 / 3)⟩

/-- The ring infos of projTri. -/
def exInfosTri : List RingInfo := [infoTri]

/-- A closed shape with a single point, id s1. -/
def degenShape1 : Shape := ⟨"s1", "polygon", true, [pt 0 0]⟩

/-- A closed shape with four coincident points, id s2; its points all
collapse to one. -/
def degenShape2 : Shape := ⟨"s2", "polygon", true, [pt 1 1, pt 1 1, pt 1 1, pt 1 1]⟩

/-- A square root table agreeing with the real square root on every
value the C4 skeleton feeds to normalize (100 and 9). -/
def exSqrtC4 : ℚ → ℚ := fun q => if q = 100 then 10 else if q = 9 then 3 else 0

/-- Two faces over the same horizontal base 0-1 with elevated apexes at
x = 5.004 and x = 5.006: the two derived perpendicular segments differ
by 0.002 < 1e-2 yet quantize to different 1e-2 grid columns. -/
def exSkelC4 : Skeleton :=
  ⟨[⟨0, 0, 0⟩, ⟨10, 0, 0⟩, ⟨5004 / 1000, 3, 1⟩, ⟨5006 / 1000, 3, 1⟩],
   [[0, 1, 2], [0, 1, 3]]⟩

/-- A skeleton for the triangle scene: three boundary vertices plus one
elevated apex, one face per boundary edge. -/
def exSkelC9 : Skeleton :=
  ⟨[⟨0, 0, 0⟩, ⟨4, 0, 0⟩, ⟨0, 4, 0⟩, ⟨1, 1, 1⟩], [[0, 1, 3], [1, 2, 3], [2, 0, 3]]⟩

/-- A solver stub returning exSkelC9 for every input. -/
def exSolve : List (List (ℚ × ℚ)) → Option Skeleton := fun _ => some exSkelC9

/-- A square root stub mapping everything to 0; normalize then returns
the zero vector and no valley creases are produced. -/
def sqrtQZero : ℚ → ℚ := fun _ => 0

/-- The build result of the triangle scene. -/
def exBuildTri : BuildResult :=
  ⟨[[(0, 0), (4, 0), (0, 4), (0, 0)]], [pt 0 0, pt 4 0, pt 0 4]⟩

/-- The run result of the triangle scene with solver exSolve and
square root stub sqrtQZero. -/
def exRunC9 : RunResult :=
  ⟨[[(0, 0), (4, 0), (0, 4), (0, 0)]], exSkelC9,
   [⟨pt 4 0, pt 1 1, "M", "skeleton"⟩, ⟨pt 0 0, pt 1 1, "M", "skeleton"⟩,
    ⟨pt 0 4, pt 1 1, "M", "skeleton"⟩],
   ⟨pt 0 2, pt 1000 2⟩⟩

/-! Helper lemmas. -/

theorem clamp01_nonneg (v : ℚ) : 0 ≤ clamp v 0 1 :=
  le_max_left 0 _

theorem clamp01_le_one (v : ℚ) : clamp v 0 1 ≤ 1 :=
  max_le (by norm_num) (min_le_left 1 v)

theorem crossTerm_swap (p q : Point) : crossTerm q p = -crossTerm p q := by
  unfold crossTerm; ring

theorem shoelaceSum_append_last (l : List Point) (z : Point) :
    shoelaceSum (l ++ [z]) =
      shoelaceSum l + (match l.getLast? with | some y => crossTerm y z | none => 0) := by
  induction l with
  | nil => simp [shoelaceSum]
  | cons a t ih =>
    cases t with
    | nil => simp [shoelaceSum]
    | cons b t2 =>
      have hl : shoelaceSum ((a :: b :: t2) ++ [z]) =
          crossTerm a b + shoelaceSum ((b :: t2) ++ [z]) := rfl
      rw [hl, ih, List.getLast?_cons_cons]
      have hr : shoelaceSum (a :: b :: t2) = crossTerm a b + shoelaceSum (b :: t2) := rfl
      rw [hr]
      ring

theorem shoelaceSum_reverse (l : List Point) : shoelaceSum l.reverse = -shoelaceSum l := by
  induction l with
  | nil => simp [shoelaceSum]
  | cons a t ih =>
    rw [List.reverse_cons, shoelaceSum_append_last, ih]
    cases t with
    | nil => simp [shoelaceSum]
    | cons b t2 =>
      rw [List.getLast?_reverse]
      have hh : (b :: t2).head? = some b := rfl
      rw [hh]
      have hr : shoelaceSum (a :: b :: t2) = crossTerm a b + shoelaceSum (b :: t2) := rfl
      rw [hr, crossTerm_swap]
      ring

theorem polygonArea_reverse (l : List Point) : polygonArea l.reverse = -polygonArea l := by
  cases l with
  | nil => simp [polygonArea, shoelaceSum]
  | cons p t =>
    have hne : p :: t ≠ [] := by simp
    obtain ⟨z, hz⟩ : ∃ z, (p :: t).getLast? = some z :=
      ⟨(p :: t).getLast hne, List.getLast?_eq_getLast _ hne⟩
    have h1 : (p :: t).reverse.take 1 = [z] := by
      rw [List.take_one, List.head?_reverse, hz]
      rfl
    unfold polygonArea
    rw [h1]
    have h2 : (p :: t).reverse ++ [z] = (z :: p :: t).reverse := by
      simp
    rw [h2, shoelaceSum_reverse]
    have h3 : (p :: t).take 1 = [p] := rfl
    rw [h3, shoelaceSum_append_last, hz]
    have h4 : shoelaceSum (z :: p :: t) = crossTerm z p + shoelaceSum (p :: t) := rfl
    rw [h4]
    ring

/-! Claim theorems. -/

/-- C10: nearestPointOnSegment is total: its denominator
len2(b-a) + 1e-12 is strictly positive, the parameter t lies in [0, 1]
and the returned point is a + t*(b-a). -/
theorem nearestPointOnSegment_total (p a b : Point) :
    0 < len2 (sub b a) + 1 / 1000000000000 ∧
    0 ≤ (nearestPointOnSegment p a b).t ∧
    (nearestPointOnSegment p a b).t ≤ 1 ∧
    (nearestPointOnSegment p a b).q = add a (mul (sub b a) (nearestPointOnSegment p a b).t) := by
  refine ⟨?_, clamp01_nonneg _, clamp01_le_one _, rfl⟩
  have h0 : 0 ≤ len2 (sub b a) := by
    unfold len2
    have hx := mul_self_nonneg (sub b a).x
    have hy := mul_self_nonneg (sub b a).y
    linarith
  linarith

/-- C5: for a non-repeating vertex sequence of at least 3 vertices
passing the simplicity check, ensureCCW yields signed area at least 0,
ensureCW yields at most 0, and each returns the input itself when its
area already has the required sign and the reversed sequence
otherwise. -/
theorem ensureCCW_ensureCW_spec (ps : List Point)
    (_hlen : 3 ≤ ps.length) (_hsimple : isSimplePolygon ps = true) :
    0 ≤ polygonArea (ensureCCW ps) ∧ polygonArea (ensureCW ps) ≤ 0 ∧
    (0 ≤ polygonArea ps → ensureCCW ps = ps) ∧
    (polygonArea ps < 0 → ensureCCW ps = ps.reverse) ∧
    (polygonArea ps ≤ 0 → ensureCW ps = ps) ∧
    (0 < polygonArea ps → ensureCW ps = ps.reverse) := by
  unfold ensureCCW ensureCW
  refine ⟨?_, ?_, ?_, ?_, ?_, ?_⟩
  · split_ifs with h
    · rw [polygonArea_reverse]; linarith
    · linarith [not_lt.mp h]
  · split_ifs with h
    · rw [polygonArea_reverse]; linarith
    · linarith [not_lt.mp h]
  · intro h; rw [if_neg (not_lt.mpr h)]
  · intro h; rw [if_pos h]
  · intro h; rw [if_neg (not_lt.mpr h)]
  · intro h; rw [if_pos h]

/-- Witness for C5 at a concrete triangle. -/
theorem ensureCCW_ensureCW_spec_witness :
    3 ≤ ([pt 0 0, pt 4 0, pt 0 4] : List Point).length ∧
    isSimplePolygon [pt 0 0, pt 4 0, pt 0 4] = true ∧
    (0 ≤ polygonArea (ensureCCW [pt 0 0, pt 4 0, pt 0 4]) ∧
      polygonArea (ensureCW [pt 0 0, pt 4 0, pt 0 4]) ≤ 0 ∧
      (0 ≤ polygonArea [pt 0 0, pt 4 0, pt 0 4] →
        ensureCCW [pt 0 0, pt 4 0, pt 0 4] = [pt 0 0, pt 4 0, pt 0 4]) ∧
      (polygonArea [pt 0 0, pt 4 0, pt 0 4] < 0 →
        ensureCCW [pt 0 0, pt 4 0, pt 0 4] = ([pt 0 0, pt 4 0, pt 0 4] : List Point).reverse) ∧
      (polygonArea [pt 0 0, pt 4 0, pt 0 4] ≤ 0 →
        ensureCW [pt 0 0, pt 4 0, pt 0 4] = [pt 0 0, pt 4 0, pt 0 4]) ∧
      (0 < polygonArea [pt 0 0, pt 4 0, pt 0 4] →
        ensureCW [pt 0 0, pt 4 0, pt 0 4] = ([pt 0 0, pt 4 0, pt 0 4] : List Point).reverse)) :=
  ⟨by decide, by decide, ensureCCW_ensureCW_spec _ (by decide) (by decide)⟩

theorem collapseStep_length (clean : List Point) (p : Point) :
    (collapseStep clean p).length ≤ clean.length + 1 := by
  cases h : clean.getLast? with
  | none =>
    unfold collapseStep
    rw [h]
    simp
  | some prev =>
    unfold collapseStep
    rw [h]
    dsimp only
    split_ifs with hcond
    · simp
    · omega

theorem foldl_collapseStep_length (pts : List Point) :
    ∀ acc : List Point, (pts.foldl collapseStep acc).length ≤ acc.length + pts.length := by
  induction pts with
  | nil => intro acc; simp
  | cons p rest ih =>
    intro acc
    have h1 := ih (collapseStep acc p)
    have h2 := collapseStep_length acc p
    simp only [List.foldl_cons, List.length_cons]
    omega

theorem collapseDuplicatePoints_length (pts : List Point) :
    (collapseDuplicatePoints pts).length ≤ pts.length := by
  have h := foldl_collapseStep_length pts []
  simpa [collapseDuplicatePoints] using h

theorem map_pt_id (l : List Point) : (l.map fun p => pt p.x p.y) = l := by
  have h : (fun p : Point => pt p.x p.y) = fun p => p := rfl
  rw [h, List.map_id']

/-- C7: the ray-segment intersection reports no hit exactly when the
cross of the direction vectors is within 1e-9 of zero, or the solved
ray parameter t is below -1e-9, or the solved segment parameter u is
outside [-1e-9, 1 + 1e-9]; a reported hit carries exactly those solved
parameters, the point rayP + t*rayDir, and t, u solve the linear
system rayP + t*rayDir = a + u*(b - a). -/
theorem lineRaySegmentIntersection_spec (rayP rayDir a b : Point) :
    (lineRaySegmentIntersection rayP rayDir a b = none ↔
      |cross rayDir (sub b a)| ≤ 1 / 1000000000 ∨
      cross (sub a rayP) (sub b a) / cross rayDir (sub b a) < -(1 / 1000000000) ∨
      cross (sub a rayP) rayDir / cross rayDir (sub b a) < -(1 / 1000000000) ∨
      cross (sub a rayP) rayDir / cross rayDir (sub b a) > 1 + 1 / 1000000000) ∧
    ∀ hit : Hit, lineRaySegmentIntersection rayP rayDir a b = some hit →
      hit.t = cross (sub a rayP) (sub b a) / cross rayDir (sub b a) ∧
      hit.u = cross (sub a rayP) rayDir / cross rayDir (sub b a) ∧
      hit.p = add rayP (mul rayDir hit.t) ∧
      -(1 / 1000000000) ≤ hit.t ∧ -(1 / 1000000000) ≤ hit.u ∧
      hit.u ≤ 1 + 1 / 1000000000 ∧
      add rayP (mul rayDir hit.t) = add a (mul (sub b a) hit.u) := by
  unfold lineRaySegmentIntersection
  by_cases h1 : |cross rayDir (sub b a)| ≤ 1 / 1000000000
  · rw [if_pos h1]
    constructor
    · constructor
      · intro _
        exact Or.inl h1
      · intro _
        rfl
    · intro hit hc
      exact absurd hc (by simp)
  · rw [if_neg h1]
    by_cases h2 : cross (sub a rayP) (sub b a) / cross rayDir (sub b a) ≥ -(1 / 1000000000) ∧
        cross (sub a rayP) rayDir / cross rayDir (sub b a) ≥ -(1 / 1000000000) ∧
        cross (sub a rayP) rayDir / cross rayDir (sub b a) ≤ 1 + 1 / 1000000000
    · rw [if_pos h2]
      have hD : cross rayDir (sub b a) ≠ 0 := by
        intro h0
        apply h1
        rw [h0]
        simp only [abs_zero]
        norm_num
      constructor
      · constructor
        · intro hc
          exact absurd hc (by simp)
        · intro hdisj
          exfalso
          rcases hdisj with h | h | h | h
          · exact h1 h
          · linarith [h2.1]
          · linarith [h2.2.1]
          · linarith [h2.2.2]
      · intro hit hc
        injection hc with hh
        subst hh
        refine ⟨rfl, rfl, rfl, h2.1, h2.2.1, h2.2.2, ?_⟩
        have hx : rayP.x + rayDir.x * (cross (sub a rayP) (sub b a) / cross rayDir (sub b a)) =
            a.x + (b.x - a.x) * (cross (sub a rayP) rayDir / cross rayDir (sub b a)) := by
          unfold cross sub at hD ⊢
          field_simp
          ring
        have hy : rayP.y + rayDir.y * (cross (sub a rayP) (sub b a) / cross rayDir (sub b a)) =
            a.y + (b.y - a.y) * (cross (sub a rayP) rayDir / cross rayDir (sub b a)) := by
          unfold cross sub at hD ⊢
          field_simp
          ring
        show Point.mk _ _ = Point.mk _ _
        rw [Point.mk.injEq]
        exact ⟨hx, hy⟩
    · rw [if_neg h2]
      constructor
      · constructor
        · intro _
          rcases not_and_or.mp h2 with h | h
          · exact Or.inr (Or.inl (not_le.mp h))
          · rcases not_and_or.mp h with h | h
            · exact Or.inr (Or.inr (Or.inl (not_le.mp h)))
            · exact Or.inr (Or.inr (Or.inr (not_le.mp h)))
        · intro _
          rfl
      · intro hit hc
        exact absurd hc (by simp)

unseal Rat.add Rat.sub Rat.mul Rat.inv in
/-- Witness for C7 at a concrete hit: ray from the origin along the x
axis against the vertical segment at x = 1. -/
theorem lineRaySegmentIntersection_spec_witness :
    lineRaySegmentIntersection (pt 0 0) (pt 1 0) (pt 1 (-1)) (pt 1 1) =
      some ⟨1, 1 / 2, pt 1 0⟩ ∧
    add (pt 0 0) (mul (pt 1 0) (⟨1, 1 / 2, pt 1 0⟩ : Hit).t) =
      add (pt 1 (-1)) (mul (sub (pt 1 1) (pt 1 (-1))) (⟨1, 1 / 2, pt 1 0⟩ : Hit).u) :=
  ⟨by decide,
   ((lineRaySegmentIntersection_spec (pt 0 0) (pt 1 0) (pt 1 (-1)) (pt 1 1)).2
      ⟨1, 1 / 2, pt 1 0⟩ (by decide)).2.2.2.2.2.2⟩

unseal Rat.add Rat.sub Rat.mul Rat.inv in
/-- C6 counterexample: two closed shapes with different identifiers
produce literally identical degenerate ring errors, so the failure does
not name the offending shape. -/
theorem ringFromShape_error_not_named :
    ringFromShape degenShape1 = .error .degenerateRing ∧
    ringFromShape degenShape2 = .error .degenerateRing ∧
    ringFromShape degenShape1 = ringFromShape degenShape2 ∧
    degenShape1.id ≠ degenShape2.id := by
  refine ⟨by decide, by decide, by decide, by decide⟩

/-- C6 amended: ring conversion collapses consecutive near-duplicate
points (within 1e-9 in both coordinates), fails with the degenerate
ring error when fewer than 3 vertices remain, fails with the self
intersection error when the cleaned ring is not simple, and otherwise
returns the cleaned ring unchanged; the errors carry no shape name. -/
theorem ringFromShape_spec (shape : Shape) :
    ((collapseDuplicatePoints shape.points).length < 3 →
      ringFromShape shape = .error .degenerateRing) ∧
    (3 ≤ (collapseDuplicatePoints shape.points).length →
      isSimplePolygon (collapseDuplicatePoints shape.points) = false →
      ringFromShape shape = .error .selfIntersectingRing) ∧
    (3 ≤ (collapseDuplicatePoints shape.points).length →
      isSimplePolygon (collapseDuplicatePoints shape.points) = true →
      ringFromShape shape = .ok (collapseDuplicatePoints shape.points)) := by
  have hlen := collapseDuplicatePoints_length shape.points
  unfold ringFromShape
  rw [map_pt_id]
  refine ⟨?_, ?_, ?_⟩
  · intro hclean
    split_ifs <;> rfl
  · intro hclean hsimp
    split_ifs <;> first | rfl | omega | simp_all
  · intro hclean hsimp
    split_ifs <;> first | rfl | omega | simp_all

unseal Rat.add Rat.sub Rat.mul Rat.inv in
/-- Witness for C6 at the triangle shape: conversion succeeds and
returns the cleaned ring. -/
theorem ringFromShape_spec_witness :
    3 ≤ (collapseDuplicatePoints exTriShape.points).length ∧
    isSimplePolygon (collapseDuplicatePoints exTriShape.points) = true ∧
    ringFromShape exTriShape = .ok (collapseDuplicatePoints exTriShape.points) :=
  ⟨by decide, by decide, (ringFromShape_spec exTriShape).2.2 (by decide) (by decide)⟩

/-- C2: once classification is reached (scene nonempty, selected shape
check passed, ring conversion succeeded, outer chosen), every other
ring with centroid inside the outer becomes a hole and the build
succeeds with outer CCW first and the holes CW, while any other ring
with centroid outside makes the build fail with the multiple disjoint
outer rings error reporting the number of such outside rings, returning
no rings. -/
theorem buildRingsCore_classification (project : Project) (selectedId : Option String)
    (ringInfos : List RingInfo) (outer : RingInfo)
    (h1 : (closedShapesOf project).isEmpty = false)
    (h2 : selectedNotClosedCheck project selectedId = false)
    (h3 : ringInfosOf (closedShapesOf project) = .ok ringInfos)
    (h4 : chooseOuter (selectedShapeOf project selectedId) ringInfos = some outer) :
    ((∀ info ∈ ringInfos, info.id ≠ outer.id →
        pointInPolygon info.centroid outer.ring = true) →
      buildRingsCore project selectedId = .ok (ensureCCW outer.ring ::
        (ringInfos.filter fun info => !(info.id == outer.id)).map fun h => ensureCW h.ring)) ∧
    ((ringInfos.filter fun info =>
        !(info.id == outer.id) && !(pointInPolygon info.centroid outer.ring)).length > 0 →
      buildRingsCore project selectedId = .error (.multipleDisjointOuterRings
        (ringInfos.filter fun info =>
          !(info.id == outer.id) && !(pointInPolygon info.centroid outer.ring)).length)) := by
  have hb : buildRingsCore project selectedId =
      if (ringInfos.filter fun info =>
          !(info.id == outer.id) && !(pointInPolygon info.centroid outer.ring)).length > 0 then
        .error (.multipleDisjointOuterRings
          (ringInfos.filter fun info =>
            !(info.id == outer.id) && !(pointInPolygon info.centroid outer.ring)).length)
      else
        .ok (ensureCCW outer.ring ::
          (ringInfos.filter fun info =>
            !(info.id == outer.id) && pointInPolygon info.centroid outer.ring).map
            fun h => ensureCW h.ring) := by
    unfold buildRingsCore
    rw [h1, h2, h3]
    dsimp only
    rw [h4]
    simp
  constructor
  · intro hin
    have hout : (ringInfos.filter fun info =>
        !(info.id == outer.id) && !(pointInPolygon info.centroid outer.ring)) = [] := by
      rw [List.filter_eq_nil_iff]
      intro info hmem
      by_cases hid : info.id = outer.id
      · simp [hid]
      · have := hin info hmem hid
        simp [this]
    have hholes : (ringInfos.filter fun info =>
        !(info.id == outer.id) && pointInPolygon info.centroid outer.ring) =
        ringInfos.filter fun info => !(info.id == outer.id) := by
      apply List.filter_congr
      intro info hmem
      by_cases hid : info.id = outer.id
      · simp [hid]
      · have := hin info hmem hid
        simp [this, hid]
    rw [hb, hout, hholes]
    simp
  · intro hout
    rw [hb, if_pos hout]

unseal Rat.add Rat.sub Rat.mul Rat.inv in
/-- Witness for C2: two disjoint closed squares fail with the multiple
disjoint outer rings error reporting count 1. -/
theorem buildRingsCore_classification_witness :
    (closedShapesOf projC2).isEmpty = false ∧
    selectedNotClosedCheck projC2 none = false ∧
    ringInfosOf (closedShapesOf projC2) = .ok exInfosC2 ∧
    chooseOuter (selectedShapeOf projC2 none) exInfosC2 = some infoA ∧
    buildRingsCore projC2 none = .error (.multipleDisjointOuterRings 1) := by
  refine ⟨by decide, by decide, by decide, by decide, ?_⟩
  have h := (buildRingsCore_classification projC2 none exInfosC2 infoA
      (by decide) (by decide) (by decide) (by decide)).2 (by decide)
  have hc : (exInfosC2.filter fun info =>
      !(info.id == infoA.id) && !(pointInPolygon info.centroid infoA.ring)).length = 1 := by
    decide
  rw [hc] at h
  exact h

theorem foldl_pickMax_mem (l : List RingInfo) :
    ∀ r : RingInfo, l.foldl pickMax r = r ∨ l.foldl pickMax r ∈ l := by
  induction l with
  | nil => intro r; left; rfl
  | cons b t ih =>
    intro r
    rcases ih (pickMax r b) with h | h
    · rw [List.foldl_cons, h]
      unfold pickMax
      split_ifs with hc
      · right; exact List.mem_cons_self _ _
      · left; rfl
    · right
      rw [List.foldl_cons]
      exact List.mem_cons_of_mem _ h

theorem foldl_pickMax_le (l : List RingInfo) :
    ∀ r : RingInfo, r.absArea ≤ (l.foldl pickMax r).absArea ∧
      ∀ i ∈ l, i.absArea ≤ (l.foldl pickMax r).absArea := by
  induction l with
  | nil =>
    intro r
    exact ⟨le_refl _, by intro i hi; cases hi⟩
  | cons b t ih =>
    intro r
    have hstep : r.absArea ≤ (pickMax r b).absArea ∧ b.absArea ≤ (pickMax r b).absArea := by
      unfold pickMax
      split_ifs with hc
      · exact ⟨le_of_lt hc, le_refl _⟩
      · exact ⟨le_refl _, le_of_not_lt hc⟩
    have ht := ih (pickMax r b)
    rw [List.foldl_cons]
    refine ⟨le_trans hstep.1 ht.1, ?_⟩
    intro i hi
    rcases List.mem_cons.mp hi with h | h
    · rw [h]; exact le_trans hstep.2 ht.1
    · exact ht.2 i h

unseal Rat.add Rat.sub Rat.mul Rat.inv in
/-- C3 counterexample: in a scene holding a closed square (the ring of
maximal absolute area) and an open polyline with id b, selecting b does
not fall back to the maximal area ring: the build fails with the
selected shape not closed error. -/
theorem buildRingsCore_selected_open_fails :
    buildRingsCore projC3 (some "b") = .error .selectedNotClosed ∧
    buildRingsCore projC3 (some "b") ≠
      .ok [[pt 0 0, pt 10 0, pt 10 10, pt 0 10]] ∧
    buildRingsCore projC3 none = .ok [[pt 0 0, pt 10 0, pt 10 10, pt 0 10]] := by
  refine ⟨by decide, by decide, by decide⟩

/-- C3 amended: when the preferred identifier resolves to a closed
polygon shape, the info found for its id is chosen as the outer ring;
when it resolves to a shape that is not a closed polygon, the builder
fails with the selected shape not closed error rather than falling
back; when no shape resolves, the fold over ringInfos picks an entry
of maximal absolute area as the outer ring. -/
theorem chooseOuter_spec :
    (∀ (project : Project) (selectedId : Option String) (s : Shape)
        (infos : List RingInfo) (info : RingInfo),
      selectedShapeOf project selectedId = some s →
      (s.stype == "polygon" && s.closed) = true →
      infos.find? (fun r : RingInfo => r.id == s.id) = some info →
      chooseOuter (selectedShapeOf project selectedId) infos = some info) ∧
    (∀ (project : Project) (selectedId : Option String),
      (closedShapesOf project).isEmpty = false →
      selectedNotClosedCheck project selectedId = true →
      buildRingsCore project selectedId = .error .selectedNotClosed) ∧
    (∀ (infos : List RingInfo) (m : RingInfo),
      chooseOuter none infos = some m →
      m ∈ infos ∧ ∀ i ∈ infos, i.absArea ≤ m.absArea) := by
  refine ⟨?_, ?_, ?_⟩
  · intro project selectedId s infos info hsel hbool hfind
    unfold chooseOuter selectedCandidate
    rw [hsel]
    dsimp only
    rw [if_pos hbool, hfind]
  · intro project selectedId hne hsel
    unfold buildRingsCore
    rw [hne, hsel]
    simp
  · intro infos m hm
    unfold chooseOuter selectedCandidate at hm
    cases infos with
    | nil => cases hm
    | cons r0 rest =>
      dsimp only at hm
      injection hm with hm
      subst hm
      constructor
      · rcases foldl_pickMax_mem (r0 :: rest) r0 with h | h
        · rw [h]; exact List.mem_cons_self _ _
        · exact h
      · exact (foldl_pickMax_le (r0 :: rest) r0).2

unseal Rat.add Rat.sub Rat.mul Rat.inv in
/-- Witness for C3 amended: the selected closed triangle is chosen as
outer; the open selection fails; without selection the maximal area
entry is picked. -/
theorem chooseOuter_spec_witness :
    chooseOuter (selectedShapeOf projTri (some "t")) exInfosTri = some infoTri ∧
    buildRingsCore projC3 (some "b") = .error .selectedNotClosed ∧
    (infoA ∈ exInfosC2 ∧ ∀ i ∈ exInfosC2, i.absArea ≤ infoA.absArea) :=
  ⟨chooseOuter_spec.1 projTri (some "t") exTriShape exInfosTri infoTri
      (by decide) (by decide) (by decide),
   chooseOuter_spec.2.1 projC3 (some "b") (by decide) (by decide),
   chooseOuter_spec.2.2 exInfosC2 infoA (by decide)⟩

theorem closeRing_dropLast (r : List Point) :
    (closeRing r).dropLast = r.map toPair := by
  unfold closeRing
  rw [List.dropLast_concat]

theorem closeRing_getLast_head (r : List Point) :
    (closeRing r).getLast? = (closeRing r).head? := by
  unfold closeRing
  rw [List.getLast?_concat]
  cases r with
  | nil => rfl
  | cons p t => rfl

/-- C8: every successful Ring Builder run returns rings in explicit
closure form whose last entry repeats the head, and stripping that
duplicated last vertex gives back exactly the orientation normalized
implicit closure rings computed internally (outer CCW first, holes
CW). -/
theorem buildRingsFromProject_roundTrip (project : Project) (selectedId : Option String)
    (res : BuildResult) (h : buildRingsFromProject project selectedId = .ok res) :
    (∃ normalized, buildRingsCore project selectedId = .ok normalized ∧
      res.rings = normalized.map closeRing ∧
      res.rings.map List.dropLast = normalized.map (List.map toPair)) ∧
    ∀ c ∈ res.rings, c.getLast? = c.head? := by
  unfold buildRingsFromProject at h
  cases hc : buildRingsCore project selectedId with
  | error e =>
    rw [hc] at h
    cases h
  | ok normalized =>
    rw [hc] at h
    dsimp only at h
    injection h with h
    subst h
    constructor
    · refine ⟨normalized, rfl, rfl, ?_⟩
      rw [List.map_map]
      apply List.map_congr_left
      intro r _
      exact closeRing_dropLast r
    · intro c hcmem
      rcases List.mem_map.mp hcmem with ⟨r, _, hr⟩
      rw [← hr]
      exact closeRing_getLast_head r

unseal Rat.add Rat.sub Rat.mul Rat.inv in
/-- Witness for C8 at the triangle scene. -/
theorem buildRingsFromProject_roundTrip_witness :
    buildRingsFromProject projTri none = .ok exBuildTri ∧
    ((∃ normalized, buildRingsCore projTri none = .ok normalized ∧
      exBuildTri.rings = normalized.map closeRing ∧
      exBuildTri.rings.map List.dropLast = normalized.map (List.map toPair)) ∧
    ∀ c ∈ exBuildTri.rings, c.getLast? = c.head?) :=
  ⟨by decide, buildRingsFromProject_roundTrip projTri none exBuildTri (by decide)⟩

theorem bump_lookup (m : List ((ℕ × ℕ) × ℕ)) (k k1 : ℕ × ℕ) :
    lookupCount (bump m k) k1 =
      if k1 = k then some ((lookupCount m k1).getD 0 + 1) else lookupCount m k1 := by
  induction m with
  | nil =>
    by_cases h : k1 = k
    · subst h; simp [bump, lookupCount]
    · simp [bump, lookupCount, h]
  | cons kc rest ih =>
    obtain ⟨k0, c⟩ := kc
    by_cases hk : k = k0
    · subst hk
      by_cases h1 : k1 = k
      · subst h1; simp [bump, lookupCount]
      · simp [bump, lookupCount, h1]
    · by_cases h1 : k1 = k0
      · subst h1
        have hne : ¬ k1 = k := fun hh => hk hh.symm
        simp [bump, lookupCount, hk, hne, Ne.symm hk]
      · simp only [bump, if_neg hk, lookupCount, if_neg h1, ih]

theorem foldl_bump_lookup (ks : List (ℕ × ℕ)) :
    ∀ (m : List ((ℕ × ℕ) × ℕ)) (k : ℕ × ℕ),
      lookupCount (ks.foldl bump m) k =
        if 0 < ks.count k then some ((lookupCount m k).getD 0 + ks.count k)
        else lookupCount m k := by
  induction ks with
  | nil => intro m k; simp
  | cons k0 rest ih =>
    intro m k
    rw [List.foldl_cons, ih (bump m k0) k, bump_lookup]
    by_cases hk : k = k0
    · subst hk
      rw [if_pos rfl]
      have hc : (k :: rest).count k = rest.count k + 1 := by
        simp [List.count_cons]
      rw [hc]
      by_cases hr : 0 < rest.count k
      · rw [if_pos hr, if_pos (by omega)]
        simp
        omega
      · have hr0 : rest.count k = 0 := by omega
        rw [if_neg hr, hr0, if_pos (by omega)]
    · rw [if_neg hk]
      have hc : (k0 :: rest).count k = rest.count k := by
        simp [List.count_cons, hk]
      rw [hc]

theorem bump_keys (m : List ((ℕ × ℕ) × ℕ)) (k : ℕ × ℕ) :
    (bump m k).map Prod.fst =
      if k ∈ m.map Prod.fst then m.map Prod.fst else m.map Prod.fst ++ [k] := by
  induction m with
  | nil => simp [bump]
  | cons kc rest ih =>
    obtain ⟨k0, c⟩ := kc
    by_cases hk : k = k0
    · subst hk
      simp [bump]
    · simp only [bump, if_neg hk, List.map_cons, ih]
      by_cases hm : k ∈ rest.map Prod.fst
      · rw [if_pos hm, if_pos (List.mem_cons_of_mem _ hm)]
      · rw [if_neg hm, if_neg (by simp [hk, hm]), List.cons_append]

theorem bump_nodupKeys (m : List ((ℕ × ℕ) × ℕ)) (k : ℕ × ℕ)
    (h : (m.map Prod.fst).Nodup) : ((bump m k).map Prod.fst).Nodup := by
  rw [bump_keys]
  by_cases hm : k ∈ m.map Prod.fst
  · rw [if_pos hm]; exact h
  · rw [if_neg hm]
    rw [List.nodup_append]
    exact ⟨h, List.nodup_singleton _, by simpa using hm⟩

theorem foldl_bump_nodupKeys (ks : List (ℕ × ℕ)) :
    ∀ m : List ((ℕ × ℕ) × ℕ), (m.map Prod.fst).Nodup →
      ((ks.foldl bump m).map Prod.fst).Nodup := by
  induction ks with
  | nil => intro m h; exact h
  | cons k0 rest ih =>
    intro m h
    rw [List.foldl_cons]
    exact ih (bump m k0) (bump_nodupKeys m k0 h)

theorem lookupCount_none_of_not_mem (m : List ((ℕ × ℕ) × ℕ)) (k : ℕ × ℕ)
    (h : k ∉ m.map Prod.fst) : lookupCount m k = none := by
  induction m with
  | nil => rfl
  | cons kc rest ih =>
    obtain ⟨k0, c⟩ := kc
    have hne : ¬ k = k0 := by
      intro hh
      exact h (by simp [hh])
    simp only [lookupCount, if_neg hne]
    exact ih (fun hm => h (by simp; right; simpa using hm))

theorem interiorEdgeFilter_eq_some (skel : Skeleton) (kc : (ℕ × ℕ) × ℕ) (x : ℕ × ℕ)
    (h : interiorEdgeFilter skel kc = some x) : x = kc.1 := by
  unfold interiorEdgeFilter at h
  split_ifs at h
  injection h with h
  exact h.symm

theorem interiorEdgeFilter_some_iff (skel : Skeleton) (k : ℕ × ℕ) (c : ℕ) :
    interiorEdgeFilter skel (k, c) = some k ↔
      (2 ≤ c ∧ edgeRenderable skel k = true) := by
  unfold interiorEdgeFilter
  dsimp only
  split_ifs with hc hr
  · simp
    omega
  · simp [hr]
    omega
  · simp [hr]

theorem count_filterMap_interior (skel : Skeleton) (m : List ((ℕ × ℕ) × ℕ)) :
    ∀ k : ℕ × ℕ, (m.map Prod.fst).Nodup →
      (m.filterMap (interiorEdgeFilter skel)).count k =
        match lookupCount m k with
        | some c => if interiorEdgeFilter skel (k, c) = some k then 1 else 0
        | none => 0 := by
  induction m with
  | nil => intro _ _; rfl
  | cons kc rest ih =>
    intro k hnd
    obtain ⟨k0, c0⟩ := kc
    have hnd0 : k0 ∉ rest.map Prod.fst := by
      simp only [List.map_cons, List.nodup_cons] at hnd
      exact hnd.1
    have hndr : (rest.map Prod.fst).Nodup := by
      simp only [List.map_cons, List.nodup_cons] at hnd
      exact hnd.2
    rw [List.filterMap_cons]
    cases hf : interiorEdgeFilter skel (k0, c0) with
    | none =>
      rw [ih k hndr]
      by_cases hk : k = k0
      · have hrest : lookupCount rest k = none := by
          rw [hk]
          exact lookupCount_none_of_not_mem rest k0 hnd0
        rw [hrest]
        simp only [lookupCount, if_pos hk]
        rw [hk, hf]
        simp
      · simp only [lookupCount, if_neg hk]
    | some x =>
      have hx : x = k0 := interiorEdgeFilter_eq_some skel (k0, c0) x hf
      by_cases hk : k = k0
      · have hxk : x = k := by rw [hx, hk]
        have hrest : lookupCount rest k = none := by
          rw [hk]
          exact lookupCount_none_of_not_mem rest k0 hnd0
        rw [hxk, List.count_cons_self, ih k hndr, hrest]
        simp only [lookupCount, if_pos hk]
        rw [hk, hf, hxk, hk]
        simp
      · have hne : k ≠ x := by rw [hx]; exact hk
        rw [List.count_cons_of_ne hne, ih k hndr]
        simp only [lookupCount, if_neg hk]

unseal Rat.add Rat.sub Rat.mul Rat.inv in
/-- C1 counterexample: a skeleton with a single face whose cycle is
0,1,0,2 walks the pairs 0-1 and 0-2 twice each, so both are emitted as
interior edges although each occurs in only one face boundary cycle. -/
theorem extractInteriorEdges_single_face_emits :
    extractInteriorEdgesFromSkeleton exSkelC1 = [(0, 1), (0, 2)] ∧
    exSkelC1.polygons.length = 1 := by
  refine ⟨by decide, by decide⟩

/-- C1 amended: an undirected vertex pair is emitted exactly once as an
interior edge when the total number of its occurrences across all face
boundary cycles (occurrences within one face counted separately) is at
least two, both vertex indices are in range, and the squared endpoint
distance is at least 1e-10; otherwise it is not emitted at all. -/
theorem extractInteriorEdges_count (skel : Skeleton) (i0 i1 : ℕ) :
    (extractInteriorEdgesFromSkeleton skel).count (i0, i1) =
      if 2 ≤ edgeOccurrences skel (i0, i1) ∧ edgeRenderable skel (i0, i1) = true
      then 1 else 0 := by
  have hnd : ((edgeCountList skel).map Prod.fst).Nodup :=
    foldl_bump_nodupKeys (skeletonEdgeKeys skel) [] (by simp)
  unfold extractInteriorEdgesFromSkeleton
  rw [count_filterMap_interior skel (edgeCountList skel) (i0, i1) hnd]
  unfold edgeCountList
  rw [foldl_bump_lookup (skeletonEdgeKeys skel) [] (i0, i1)]
  unfold edgeOccurrences
  by_cases hocc : 0 < (skeletonEdgeKeys skel).count (i0, i1)
  · rw [if_pos hocc]
    have h0 : (lookupCount [] (i0, i1)).getD 0 + (skeletonEdgeKeys skel).count (i0, i1) =
        (skeletonEdgeKeys skel).count (i0, i1) := by
      simp [lookupCount]
    rw [h0]
    dsimp only
    by_cases hcond : 2 ≤ (skeletonEdgeKeys skel).count (i0, i1) ∧
        edgeRenderable skel (i0, i1) = true
    · rw [if_pos ((interiorEdgeFilter_some_iff skel (i0, i1) _).mpr hcond), if_pos hcond]
    · rw [if_neg (fun hh => hcond ((interiorEdgeFilter_some_iff skel (i0, i1) _).mp hh)),
        if_neg hcond]
  · rw [if_neg hocc]
    dsimp only [lookupCount]
    rw [if_neg (fun hh => absurd hh.1 (by omega))]

theorem valleyDedupGo_filter_count (segs : List (Point × Point)) :
    ∀ (seen : List (Point × Point)) (k : Point × Point),
      ((valleyDedupGo seen segs).filter fun c =>
          keyForUndirectedEdge c.a c.b (1 / 100) == k).length =
        if k ∈ seen then 0
        else if segs.any (fun s => keyForUndirectedEdge s.1 s.2 (1 / 100) == k) then 1
        else 0 := by
  induction segs with
  | nil =>
    intro seen k
    simp [valleyDedupGo]
  | cons s rest ih =>
    intro seen k
    by_cases hks : keyForUndirectedEdge s.1 s.2 (1 / 100) ∈ seen
    · rw [valleyDedupGo, if_pos hks, ih seen k]
      by_cases hkseen : k ∈ seen
      · rw [if_pos hkseen, if_pos hkseen]
      · have hfalse : (keyForUndirectedEdge s.1 s.2 (1 / 100) == k) = false := by
          rw [beq_eq_false_iff_ne]
          intro heq
          exact hkseen (heq ▸ hks)
        rw [if_neg hkseen, if_neg hkseen, List.any_cons, hfalse, Bool.false_or]
    · rw [valleyDedupGo, if_neg hks, List.filter_cons]
      by_cases hkk : (keyForUndirectedEdge s.1 s.2 (1 / 100) == k) = true
      · have hkeq : keyForUndirectedEdge s.1 s.2 (1 / 100) = k := beq_iff_eq.mp hkk
        have hknotseen : k ∉ seen := fun hh => hks (hkeq ▸ hh)
        have hrest := ih (keyForUndirectedEdge s.1 s.2 (1 / 100) :: seen) k
        rw [if_pos (List.mem_cons.mpr (Or.inl hkeq.symm))] at hrest
        dsimp only
        rw [if_pos hkk, List.length_cons, hrest, if_neg hknotseen, List.any_cons, hkk,
          Bool.true_or]
        simp
      · have hrest := ih (keyForUndirectedEdge s.1 s.2 (1 / 100) :: seen) k
        dsimp only
        rw [if_neg hkk]
        by_cases hkseen : k ∈ seen
        · rw [if_pos (List.mem_cons_of_mem _ hkseen)] at hrest
          rw [hrest, if_pos hkseen]
        · have hknotcons : k ∉ keyForUndirectedEdge s.1 s.2 (1 / 100) :: seen := by
            intro hh
            rcases List.mem_cons.mp hh with hh | hh
            · exact hkk (beq_iff_eq.mpr hh.symm)
            · exact hkseen hh
          have hfalse : (keyForUndirectedEdge s.1 s.2 (1 / 100) == k) = false := by
            rw [beq_eq_false_iff_ne]
            intro heq
            exact hkk (beq_iff_eq.mpr heq)
          rw [if_neg hknotcons] at hrest
          rw [hrest, List.any_cons, hfalse, Bool.false_or, if_neg hkseen]

theorem valleyDedupGo_kinds (segs : List (Point × Point)) :
    ∀ seen : List (Point × Point),
      ((valleyDedupGo seen segs).all fun c => c.kind == "V") = true := by
  induction segs with
  | nil => intro seen; rfl
  | cons s rest ih =>
    intro seen
    rw [valleyDedupGo]
    split_ifs with hks
    · exact ih seen
    · rw [List.all_cons]
      rw [ih (keyForUndirectedEdge s.1 s.2 (1 / 100) :: seen)]
      rfl

unseal Rat.add Rat.sub Rat.mul Rat.inv in
/-- C4 counterexample: the two perpendicular segments derived from the
two faces of exSkelC4 have corresponding endpoints within 0.002 of
each other (well below the 1e-2 tolerance), yet their quantized
undirected edge keys differ, the second is not dropped, and two Valley
creases appear in the output. -/
theorem valley_close_segments_not_merged :
    buildPerpendicularsFromFaces exSqrtC4 exSkelC4 =
      [⟨pt (5004 / 1000) 3, pt (5004 / 1000) 0, "V", "perp"⟩,
       ⟨pt (5006 / 1000) 3, pt (5006 / 1000) 0, "V", "perp"⟩] ∧
    dist2 (pt (5004 / 1000) 3) (pt (5006 / 1000) 3) < (1 / 100) ^ 2 ∧
    dist2 (pt (5004 / 1000) 0) (pt (5006 / 1000) 0) < (1 / 100) ^ 2 ∧
    keyForUndirectedEdge (pt (5004 / 1000) 3) (pt (5004 / 1000) 0) (1 / 100) ≠
      keyForUndirectedEdge (pt (5006 / 1000) 3) (pt (5006 / 1000) 0) (1 / 100) := by
  refine ⟨by decide, by decide, by decide, by decide⟩

/-- C4 amended: among the derived perpendicular segments, exactly one
Valley crease appears in the output for every quantized undirected
edge key (tolerance 1e-2) that occurs among the candidates, and none
for a key that does not occur: a later candidate is dropped by the
seen key set exactly when its key equals the key of an earlier one.
Corresponding endpoints within 1e-2 of each other do not by themselves
force equal keys.  Every emitted crease is a Valley crease. -/
theorem buildPerpendiculars_dedup (sqrtQ : ℚ → ℚ) (skel : Skeleton) (k : Point × Point) :
    ((buildPerpendicularsFromFaces sqrtQ skel).filter fun c =>
        keyForUndirectedEdge c.a c.b (1 / 100) == k).length =
      (if (valleyCandidates sqrtQ skel).any
          (fun s => keyForUndirectedEdge s.1 s.2 (1 / 100) == k) then 1 else 0) ∧
    ((buildPerpendicularsFromFaces sqrtQ skel).all fun c => c.kind == "V") = true := by
  constructor
  · unfold buildPerpendicularsFromFaces
    rw [valleyDedupGo_filter_count (valleyCandidates sqrtQ skel) [] k]
    simp
  · exact valleyDedupGo_kinds (valleyCandidates sqrtQ skel) []

theorem foldl_min_le_init (l : List ℚ) : ∀ a : ℚ, l.foldl min a ≤ a := by
  induction l with
  | nil => intro a; exact le_refl a
  | cons b t ih =>
    intro a
    exact le_trans (ih (min a b)) (min_le_left a b)

theorem foldl_min_le_mem (l : List ℚ) : ∀ (a x : ℚ), x ∈ l → l.foldl min a ≤ x := by
  induction l with
  | nil => intro a x hx; cases hx
  | cons b t ih =>
    intro a x hx
    rcases List.mem_cons.mp hx with h | h
    · rw [List.foldl_cons]
      exact le_trans (foldl_min_le_init t (min a b)) (h ▸ min_le_right a b)
    · exact ih (min a b) x h

theorem foldl_min_mem (l : List ℚ) : ∀ a : ℚ, l.foldl min a = a ∨ l.foldl min a ∈ l := by
  induction l with
  | nil => intro a; left; rfl
  | cons b t ih =>
    intro a
    rw [List.foldl_cons]
    rcases ih (min a b) with h | h
    · rcases le_total a b with hab | hab
      · left; rw [h]; exact min_eq_left hab
      · right; rw [h, min_eq_right hab]; exact List.mem_cons_self _ _
    · right; exact List.mem_cons_of_mem _ h

theorem foldl_max_ge_init (l : List ℚ) : ∀ a : ℚ, a ≤ l.foldl max a := by
  induction l with
  | nil => intro a; exact le_refl a
  | cons b t ih =>
    intro a
    exact le_trans (le_max_left a b) (ih (max a b))

theorem foldl_max_ge_mem (l : List ℚ) : ∀ (a x : ℚ), x ∈ l → x ≤ l.foldl max a := by
  induction l with
  | nil => intro a x hx; cases hx
  | cons b t ih =>
    intro a x hx
    rcases List.mem_cons.mp hx with h | h
    · rw [List.foldl_cons]
      exact le_trans (h ▸ le_max_right a b) (foldl_max_ge_init t (max a b))
    · exact ih (max a b) x h

theorem foldl_max_mem (l : List ℚ) : ∀ a : ℚ, l.foldl max a = a ∨ l.foldl max a ∈ l := by
  induction l with
  | nil => intro a; left; rfl
  | cons b t ih =>
    intro a
    rw [List.foldl_cons]
    rcases ih (max a b) with h | h
    · rcases le_total b a with hab | hab
      · left; rw [h]; exact max_eq_left hab
      · right; rw [h, max_eq_right hab]; exact List.mem_cons_self _ _
    · right; exact List.mem_cons_of_mem _ h

theorem foldl_bboxStep_minY (rest : List Point) :
    ∀ bb : Bbox, (rest.foldl bboxStep bb).minY =
      rest.foldl (fun acc q => min acc q.y) bb.minY := by
  induction rest with
  | nil => intro bb; rfl
  | cons q t ih =>
    intro bb
    rw [List.foldl_cons, List.foldl_cons, ih]
    rfl

theorem foldl_bboxStep_maxY (rest : List Point) :
    ∀ bb : Bbox, (rest.foldl bboxStep bb).maxY =
      rest.foldl (fun acc q => max acc q.y) bb.maxY := by
  induction rest with
  | nil => intro bb; rfl
  | cons q t ih =>
    intro bb
    rw [List.foldl_cons, List.foldl_cons, ih]
    rfl

theorem skeletonBbox_minY_spec (skel : Skeleton) (h : skel.vertices ≠ []) :
    (∃ v ∈ skel.vertices, (skeletonBbox skel).minY = v.y) ∧
    ∀ v ∈ skel.vertices, (skeletonBbox skel).minY ≤ v.y := by
  cases hv : skel.vertices with
  | nil => exact absurd hv h
  | cons w rest =>
    have hbb : (skeletonBbox skel).minY =
        (rest.map (fun v => v.y)).foldl min w.y := by
      unfold skeletonBbox bboxOfPoints
      rw [hv]
      dsimp only [List.map_cons]
      rw [foldl_bboxStep_minY]
      rw [List.foldl_map, List.foldl_map]
      rfl
    constructor
    · rcases foldl_min_mem (rest.map (fun v => v.y)) w.y with hm | hm
      · exact ⟨w, List.mem_cons_self _ _, by rw [hbb, hm]⟩
      · rcases List.mem_map.mp hm with ⟨v, hvm, hvy⟩
        exact ⟨v, List.mem_cons_of_mem _ hvm, by rw [hbb, hvy]⟩
    · intro v hvm
      rcases List.mem_cons.mp hvm with hh | hh
      · rw [hbb, hh]
        exact foldl_min_le_init _ _
      · rw [hbb]
        exact foldl_min_le_mem _ _ _ (List.mem_map.mpr ⟨v, hh, rfl⟩)

theorem skeletonBbox_maxY_spec (skel : Skeleton) (h : skel.vertices ≠ []) :
    (∃ v ∈ skel.vertices, (skeletonBbox skel).maxY = v.y) ∧
    ∀ v ∈ skel.vertices, v.y ≤ (skeletonBbox skel).maxY := by
  cases hv : skel.vertices with
  | nil => exact absurd hv h
  | cons w rest =>
    have hbb : (skeletonBbox skel).maxY =
        (rest.map (fun v => v.y)).foldl max w.y := by
      unfold skeletonBbox bboxOfPoints
      rw [hv]
      dsimp only [List.map_cons]
      rw [foldl_bboxStep_maxY]
      rw [List.foldl_map, List.foldl_map]
      rfl
    constructor
    · rcases foldl_max_mem (rest.map (fun v => v.y)) w.y with hm | hm
      · exact ⟨w, List.mem_cons_self _ _, by rw [hbb, hm]⟩
      · rcases List.mem_map.mp hm with ⟨v, hvm, hvy⟩
        exact ⟨v, List.mem_cons_of_mem _ hvm, by rw [hbb, hvy]⟩
    · intro v hvm
      rcases List.mem_cons.mp hvm with hh | hh
      · rw [hbb, hh]
        exact foldl_max_ge_init _ _
      · rw [hbb]
        exact foldl_max_ge_mem _ _ _ (List.mem_map.mpr ⟨v, hh, rfl⟩)

/-- C9: a successful engine run returns the horizontal cut line from
(0, y) to (viewport.w, y) where y is the midpoint of the bounding box
of the skeleton vertices in the vertical direction, and for a nonempty
vertex list the box bounds are the attained minimum and maximum vertex
y coordinates. -/
theorem engineRun_cutLine (solve : List (List (ℚ × ℚ)) → Option Skeleton) (sqrtQ : ℚ → ℚ)
    (project : Project) (selectedId : Option String) (viewport : Viewport) (out : RunResult)
    (h : FoldAndCutEngine.run solve sqrtQ project selectedId viewport = .ok out) :
    out.cutLine.a =
      pt 0 (((skeletonBbox out.skeleton).minY + (skeletonBbox out.skeleton).maxY) / 2) ∧
    out.cutLine.b =
      pt viewport.w
        (((skeletonBbox out.skeleton).minY + (skeletonBbox out.skeleton).maxY) / 2) ∧
    (out.skeleton.vertices ≠ [] →
      (∃ v ∈ out.skeleton.vertices, (skeletonBbox out.skeleton).minY = v.y) ∧
      (∃ v ∈ out.skeleton.vertices, (skeletonBbox out.skeleton).maxY = v.y) ∧
      ∀ v ∈ out.skeleton.vertices,
        (skeletonBbox out.skeleton).minY ≤ v.y ∧ v.y ≤ (skeletonBbox out.skeleton).maxY) := by
  unfold FoldAndCutEngine.run at h
  cases hb : buildRingsFromProject project selectedId with
  | error e =>
    rw [hb] at h
    cases h
  | ok res =>
    rw [hb] at h
    dsimp only at h
    cases hs : solve res.rings with
    | none =>
      rw [hs] at h
      cases h
    | some skel =>
      rw [hs] at h
      dsimp only at h
      injection h with h
      subst h
      refine ⟨rfl, rfl, ?_⟩
      intro hne
      exact ⟨(skeletonBbox_minY_spec _ hne).1, (skeletonBbox_maxY_spec _ hne).1,
        fun v hv => ⟨(skeletonBbox_minY_spec _ hne).2 v hv,
          (skeletonBbox_maxY_spec _ hne).2 v hv⟩⟩

unseal Rat.add Rat.sub Rat.mul Rat.inv in
/-- Witness for C9: a concrete run of the triangle scene with the stub
solver ends with the cut line at y = 2 spanning the viewport width. -/
theorem engineRun_cutLine_witness :
    FoldAndCutEngine.run exSolve sqrtQZero projTri none ⟨1000, 700⟩ = .ok exRunC9 ∧
    (exRunC9.cutLine.a =
      pt 0 (((skeletonBbox exRunC9.skeleton).minY + (skeletonBbox exRunC9.skeleton).maxY) / 2) ∧
    exRunC9.cutLine.b =
      pt (1000 : ℚ)
        (((skeletonBbox exRunC9.skeleton).minY + (skeletonBbox exRunC9.skeleton).maxY) / 2) ∧
    (exRunC9.skeleton.vertices ≠ [] →
      (∃ v ∈ exRunC9.skeleton.vertices, (skeletonBbox exRunC9.skeleton).minY = v.y) ∧
      (∃ v ∈ exRunC9.skeleton.vertices, (skeletonBbox exRunC9.skeleton).maxY = v.y) ∧
      ∀ v ∈ exRunC9.skeleton.vertices,
        (skeletonBbox exRunC9.skeleton).minY ≤ v.y ∧
          v.y ≤ (skeletonBbox exRunC9.skeleton).maxY)) :=
  ⟨by decide, engineRun_cutLine exSolve sqrtQZero projTri none ⟨1000, 700⟩ exRunC9 (by decide)⟩

end FoldCut
